import Mathlib

/-!
Verification of the besedka chat server core against its specification.

This file gives a shallow embedding of the relevant Go code:
* `internal/chat/chat.go` — the per-chat ring buffer (`Chat.AddRecord`,
  `Chat.GetRecords`, `Chat.GetLastRecords`);
* `internal/auth/service.go` — `AuthService.Login`, `checkTOTP`,
  `GenerateTOTP` (with full SHA-1 / HMAC / base32 as in the Go standard
  library);
* `internal/ws/hub.go` — `getDMID`, `isUserInDM`, `Hub.Join`, `Hub.Leave`,
  `Hub.sendToUser`.

Modelling conventions:
* Go `int` / `int64` become `Int` (with explicit `% 2^64` where the code
  converts to `uint64`); byte strings become `List Nat` of values < 256.
* Effectful dependencies (the storage interface, the clock `as.now()`,
  `crypto/rand` token generation) are passed explicitly: each call site
  receives the outcome of the corresponding external call as a parameter.
* Go maps become association lists or functions; Go channels become an
  explicit store of queues indexed by an allocation counter, so that queue
  identity (which the code relies on in `Hub.Join` / `Hub.Leave`) is
  observable.
* Fallible Go calls return `Except Unit _` (the error payload is opaque).
-/

namespace Besedka

/-! ## internal/models (models.go) -/

/-- models.Attachment. -/
structure Attachment where
  type : String
  name : String
  mimeType : String
  fileID : String
deriving DecidableEq, Repr

/-- models.Message. -/
structure Message where
  seq : Int
  timestamp : Int
  chatID : String
  userID : String
  content : String
  attachments : List Attachment
deriving DecidableEq, Repr

/-- models.Presence. -/
structure Presence where
  online : Bool
  lastSeen : Int
deriving DecidableEq, Repr

/-- models.UserStatus constants (Go string-typed enum). -/
def userStatusCreated : String := "created"

def userStatusActive : String := "active"

def userStatusDeleted : String := "deleted"

/-- models.User. -/
structure User where
  id : String
  userName : String
  displayName : String
  avatarURL : String
  presence : Presence
  status : String
deriving DecidableEq, Repr

/-- models.ServerMessage (fields used by the hub fan-out path). -/
structure ServerMessage where
  type : String
  userID : String
  online : Bool
  chatID : String
  messages : List Message
deriving DecidableEq, Repr

/-! ## internal/chat/chat.go -/

/-- chat.ChatRecord. `seq` carries a chat.Seq (int64). -/
structure ChatRecord where
  seq : Int
  timestamp : Int
  userID : String
  content : String
  attachments : List Attachment
deriving DecidableEq, Repr

instance : Inhabited ChatRecord := ⟨⟨0, 0, "", "", []⟩⟩

/-- chat.Chat. The `storage` interface field is modelled by the flag
`hasStorage` (whether `c.storage != nil`); the outcome of each storage call
is passed to the operation that performs it. The `RecordCallback` field is
modelled by returning the list of receivers the callback is invoked for
(the hub always installs a callback). -/
structure Chat where
  id : String
  name : String
  records : List ChatRecord
  members : List (String × Bool)
  firstSeq : Int
  lastSeq : Int
  lastIndex : Int
  maxRecords : Int
  hasStorage : Bool
deriving DecidableEq, Repr

/-- chat.New (chat.Config carries ID, MaxRecords, callback, storage). -/
def Chat.new (id : String) (maxRecords : Int) (hasStorage : Bool) : Chat :=
  { id := id
    name := ""
    records := []
    members := []
    firstSeq := 0
    lastSeq := 0
    lastIndex := -1
    maxRecords := maxRecords
    hasStorage := hasStorage }

instance {ε α : Type} [DecidableEq ε] [DecidableEq α] :
    DecidableEq (Except ε α) := fun a b =>
  match a, b with
  | .error e, .error f =>
    if h : e = f then isTrue (by rw [h]) else isFalse (by simp [h])
  | .ok x, .ok y =>
    if h : x = y then isTrue (by rw [h]) else isFalse (by simp [h])
  | .error _, .ok _ => isFalse (by simp)
  | .ok _, .error _ => isFalse (by simp)

/-- Whether an `Except` value is the error case (Go `err != nil`). -/
def exceptIsError {ε α : Type} (e : Except ε α) : Bool :=
  match e with
  | .error _ => true
  | .ok _ => false

/-- Chat.AddRecord. `persistResult` is the outcome of the
`storage.UpsertMessage` call this invocation would make (ignored when the
chat has no storage, matching `c.storage != nil`). The function returns the
chat state after the call — the Go method mutates the receiver, and on a
persistence failure `c.LastSeq` has already been incremented — together
with either the error or the appended record plus the receivers for which
the record callback fired (the members currently marked online). -/
def Chat.addRecord (c : Chat) (persistResult : Except Unit Unit)
    (record : ChatRecord) : Chat × Except Unit (ChatRecord × List String) :=
  -- c.LastSeq++; record.Seq = c.LastSeq
  let c1 : Chat := { c with lastSeq := c.lastSeq + 1 }
  let record : ChatRecord := { record with seq := c1.lastSeq }
  -- Persist: if c.storage != nil && err != nil, return the error
  if c1.hasStorage && exceptIsError persistResult then
    (c1, .error ())
  else
    -- Add record to ring buffer
    let c2 : Chat :=
      if (c1.records.length : Int) < c1.maxRecords then
        { c1 with
          firstSeq := if c1.firstSeq = 0 then c1.lastSeq else c1.firstSeq
          records := c1.records ++ [record]
          lastIndex := c1.lastIndex + 1 }
      else
        let i : Int := Int.tmod (c1.lastIndex + 1) c1.maxRecords
        { c1 with
          firstSeq := c1.firstSeq + 1
          records := c1.records.set i.toNat record
          lastIndex := i }
    -- for receiverID, online := range c.Members { if online { callback } }
    let receivers := (c2.members.filter (fun m => m.2)).map (fun m => m.1)
    (c2, .ok (record, receivers))

/-- Iterate `Chat.AddRecord` over a list of records, with every
`storage.UpsertMessage` call succeeding (a sequence of successful appends).
Returns the final chat state and the appended records (with their assigned
sequence numbers) in order. -/
def Chat.appendAll (c : Chat) (recs : List ChatRecord) : Chat × List ChatRecord :=
  match recs with
  | [] => (c, [])
  | r :: rest =>
    match c.addRecord (.ok ()) r with
    | (c', .ok out) =>
      let tail := c'.appendAll rest
      (tail.1, out.1 :: tail.2)
    | (c', .error _) => (c', [])

/-- Physical index of the oldest in-memory record, as computed identically
in `Chat.GetRecords` and `Chat.GetLastRecords`:
`head := 0; if len(c.Records) == c.MaxRecords { head = (c.LastIndex + 1) % c.MaxRecords }`. -/
def Chat.headIdx (c : Chat) : Int :=
  if (c.records.length : Int) = c.maxRecords then
    Int.tmod (c.lastIndex + 1) c.maxRecords
  else 0

/-- The ring-read step shared by `Chat.GetRecords` and
`Chat.GetLastRecords`: read `count` records starting at physical index
`startIdx`, wrapping around the end of the slice:
`if startIdx+count <= len { records[startIdx : startIdx+count] } else { records[startIdx:] ++ records[:count-n1] }`
with `n1 = len - startIdx`. -/
def ringSlice (records : List ChatRecord) (startIdx count : Int) : List ChatRecord :=
  if startIdx + count ≤ (records.length : Int) then
    (records.drop startIdx.toNat).take count.toNat
  else
    let n1 : Int := (records.length : Int) - startIdx
    records.drop startIdx.toNat ++ records.take (count - n1).toNat

/-- Conversion of a stored models.Message back to a ChatRecord, as done in
`Chat.GetRecords` when merging the storage prefix. -/
def msgToRecord (m : Message) : ChatRecord :=
  { seq := m.seq
    timestamp := m.timestamp
    userID := m.userID
    content := m.content
    attachments := m.attachments }

/-- Chat.GetRecords. `listMessages` is the `storage.ListMessages(c.ID, ·, ·)`
oracle (invoked only when `from < memFrom` and the chat has storage). The
half-open request is `[from, to)`; the storage read is inclusive
`[from, storeTo-1]` as in the source. -/
def Chat.getRecords (c : Chat) (listMessages : Int → Int → Except Unit (List Message))
    (from_ to_ : Int) : Except Unit (List ChatRecord) :=
  -- If no records in memory and no storage, nothing to return
  if c.lastSeq = 0 then .ok []
  else
    -- 1. Determine what we can serve from memory
    let memFrom : Int := if c.records.length = 0 then c.lastSeq + 1 else c.firstSeq
    -- 2. Fetch from storage if 'from' is before what we have in memory
    let storagePart : Except Unit (List ChatRecord) :=
      if from_ < memFrom && c.hasStorage then
        let storeTo : Int := if to_ > memFrom then memFrom else to_
        match listMessages from_ (storeTo - 1) with
        | .error e => .error e
        | .ok msgs => .ok (msgs.map msgToRecord)
      else .ok []
    match storagePart with
    | .error e => .error e
    | .ok result0 =>
      -- 3. Fetch from memory, if the request extends into the memory range
      if to_ > memFrom then
        let mFrom : Int := if from_ < memFrom then memFrom else from_
        if mFrom < to_ && c.firstSeq ≤ mFrom then
          let count : Int := to_ - mFrom
          let offset : Int := mFrom - c.firstSeq
          let startIdx : Int := Int.tmod (c.headIdx + offset) c.records.length
          .ok (result0 ++ ringSlice c.records startIdx count)
        else .ok result0
      else .ok result0

/-- Chat.GetLastRecords. Reads only the in-memory ring (the method never
calls storage); the Go version always returns a nil error, so the error is
omitted. `count > total` is clamped to the in-memory total
`lastSeq - firstSeq + 1`. -/
def Chat.getLastRecords (c : Chat) (count : Int) : List ChatRecord :=
  if c.lastSeq = 0 then []
  else
    let total : Int := c.lastSeq - c.firstSeq + 1
    let count : Int := if count > total then total else count
    -- We want [LastSeq - count + 1, LastSeq + 1)
    let from_ : Int := c.lastSeq - count + 1
    let offset : Int := from_ - c.firstSeq
    let startIdx : Int := Int.tmod (c.headIdx + offset) c.records.length
    ringSlice c.records startIdx count

/-- Chat.addMember (shared body of Chat.Join and Chat.Leave): Go map
assignment `c.Members[userID] = online` on the association list. -/
def Chat.addMember (c : Chat) (userID : String) (online : Bool) : Chat :=
  { c with
    members :=
      if (c.members.map Prod.fst).contains userID then
        c.members.map (fun m => if m.1 = userID then (userID, online) else m)
      else c.members ++ [(userID, online)] }

/-- Chat.Join. -/
def Chat.join (c : Chat) (userID : String) : Chat :=
  c.addMember userID true

/-- Chat.Leave. -/
def Chat.leave (c : Chat) (userID : String) : Chat :=
  c.addMember userID false

/-! ## internal/auth/service.go

The cryptographic primitives used by `GenerateTOTP` (base32 decoding,
SHA-1, HMAC) are embedded in full, following the Go standard library.
Bytes are `Nat` values < 256, 32-bit words are `Nat` values < 2^32. -/

/-- Truncation to a 32-bit word. -/
def m32 (x : Nat) : Nat := x % 4294967296

/-- Left rotation of a 32-bit word by `n` bits. -/
def rotl32 (n x : Nat) : Nat := m32 ((x <<< n) ||| (x >>> (32 - n)))

/-- Big-endian byte serialisation of `x` into `n` bytes. -/
def toBytesBE : Nat → Nat → List Nat
  | 0, _ => []
  | n + 1, x => toBytesBE n (x >>> 8) ++ [x % 256]

/-- Group a byte list into big-endian 32-bit words (length a multiple of 4). -/
def bytesToWords : List Nat → List Nat
  | b0 :: b1 :: b2 :: b3 :: rest =>
    ((((b0 <<< 8) ||| b1) <<< 8 ||| b2) <<< 8 ||| b3) :: bytesToWords rest
  | _ => []

/-- Split a list into chunks of 64 elements (SHA-1 blocks); structural
recursion on a fuel bounded by the list length (each step consumes at
least one element). -/
def chunks64Aux : Nat → List Nat → List (List Nat)
  | _, [] => []
  | 0, _ :: _ => []
  | fuel + 1, b :: rest =>
    (b :: rest).take 64 :: chunks64Aux fuel ((b :: rest).drop 64)

/-- Split a list into chunks of 64 elements (SHA-1 blocks). -/
def chunks64 (l : List Nat) : List (List Nat) :=
  chunks64Aux l.length l

/-- One step of the SHA-1 message-schedule extension: append
`rotl1 (w[i-3] xor w[i-8] xor w[i-14] xor w[i-16])` for `i = ws.length`. -/
def sha1ExtendStep (ws : List Nat) : List Nat :=
  let i := ws.length
  ws ++ [rotl32 1 (ws.getD (i - 3) 0 ^^^ ws.getD (i - 8) 0 ^^^
                   ws.getD (i - 14) 0 ^^^ ws.getD (i - 16) 0)]

/-- One SHA-1 round: `p` is `(i, w[i])`, the state is `(a, b, c, d, e)`. -/
def sha1Round (st : Nat × Nat × Nat × Nat × Nat) (p : Nat × Nat) :
    Nat × Nat × Nat × Nat × Nat :=
  let (a, b, c, d, e) := st
  let (i, w) := p
  let f :=
    if i < 20 then (b &&& c) ||| ((b ^^^ 0xffffffff) &&& d)
    else if i < 40 then b ^^^ c ^^^ d
    else if i < 60 then (b &&& c) ||| (b &&& d) ||| (c &&& d)
    else b ^^^ c ^^^ d
  let k :=
    if i < 20 then 0x5A827999
    else if i < 40 then 0x6ED9EBA1
    else if i < 60 then 0x8F1BBCDC
    else 0xCA62C1D6
  let temp := m32 (rotl32 5 a + f + e + k + w)
  (temp, a, rotl32 30 b, c, d)

/-- SHA-1 compression of one 64-byte block into the running hash state. -/
def sha1Block (h : Nat × Nat × Nat × Nat × Nat) (block : List Nat) :
    Nat × Nat × Nat × Nat × Nat :=
  let (h0, h1, h2, h3, h4) := h
  let ws := sha1ExtendStep^[64] (bytesToWords block)
  let (a, b, c, d, e) := ws.enum.foldl sha1Round (h0, h1, h2, h3, h4)
  (m32 (h0 + a), m32 (h1 + b), m32 (h2 + c), m32 (h3 + d), m32 (h4 + e))

/-- SHA-1 of a byte list (crypto/sha1). -/
def sha1 (msg : List Nat) : List Nat :=
  let len := msg.length
  let padded := msg ++ [0x80] ++ List.replicate ((119 - len % 64) % 64) 0 ++
    toBytesBE 8 (len * 8)
  let (h0, h1, h2, h3, h4) :=
    (chunks64 padded).foldl sha1Block
      (0x67452301, 0xEFCDAB89, 0x98BADCFE, 0x10325476, 0xC3D2E1F0)
  [h0, h1, h2, h3, h4].flatMap (toBytesBE 4)

/-- HMAC-SHA-1 (crypto/hmac with sha1.New; block size 64). -/
def hmacSha1 (key msg : List Nat) : List Nat :=
  let key := if 64 < key.length then sha1 key else key
  let key := key ++ List.replicate (64 - key.length) 0
  let ipad := key.map (fun b => b ^^^ 0x36)
  let opad := key.map (fun b => b ^^^ 0x5c)
  sha1 (opad ++ sha1 (ipad ++ msg))

/-- Value of one character of the RFC 4648 standard base32 alphabet. -/
def base32Char (ch : Char) : Option Nat :=
  let n := ch.toNat
  if 65 ≤ n ∧ n ≤ 90 then some (n - 65)
  else if 50 ≤ n ∧ n ≤ 55 then some (n - 50 + 26)
  else none

/-- Number of output bytes of a base32 group with `d` data characters
(other counts are invalid paddings). -/
def b32DataLen : Nat → Option Nat
  | 2 => some 1
  | 4 => some 2
  | 5 => some 3
  | 7 => some 4
  | 8 => some 5
  | _ => none

/-- Decode base32 text, 8-character group by group, as
encoding/base32 StdEncoding.DecodeString does: the input length must be a
multiple of 8, `=` padding may occur only at the tail of the final group,
and only at the positions the alphabet allows. -/
def base32DecodeGroupsAux : Nat → List Char → Except Unit (List Nat)
  | _, [] => .ok []
  | 0, _ :: _ => .error ()
  | fuel + 1, c :: cs =>
    let g := (c :: cs).take 8
    if g.length < 8 then .error ()
    else
      let dataChars := g.takeWhile (fun ch => ch ≠ '=')
      let padChars := g.drop dataChars.length
      if ¬ (padChars.all (fun ch => ch = '=')) then .error ()
      else if padChars.length ≠ 0 ∧ (c :: cs).drop 8 ≠ [] then .error ()
      else
        match b32DataLen dataChars.length with
        | none => .error ()
        | some nbytes =>
          match dataChars.mapM base32Char with
          | none => .error ()
          | some vals =>
            let acc := (vals ++ List.replicate (8 - vals.length) 0).foldl
              (fun a v => a * 32 + v) 0
            match base32DecodeGroupsAux fuel ((c :: cs).drop 8) with
            | .error e => .error e
            | .ok rest => .ok ((toBytesBE 5 acc).take nbytes ++ rest)

/-- base32.StdEncoding.DecodeString on the characters of `s` (TOTP secrets
are ASCII base32 text, where Go's bytes and Lean's characters agree). The
fuel `s.data.length` suffices: every step consumes eight characters. -/
def base32Decode (s : String) : Except Unit (List Nat) :=
  base32DecodeGroupsAux s.data.length s.data

/-- GenerateTOTP (auth/service.go): RFC 6238 with HMAC-SHA-1, 30-second
step, 6 digits. `t` is the unix time in seconds; Go's `t.Unix() / 30`
truncates toward zero (`Int.tdiv`) and `uint64(counter)` reduces modulo
2^64. -/
def GenerateTOTP (secret : String) (t : Int) : Except Unit Int :=
  match base32Decode secret with
  | .error _ => .error ()
  | .ok key =>
    let counter : Int := Int.tdiv t 30
    let buf := toBytesBE 8 (Int.toNat (Int.emod counter (2 ^ 64)))
    let sum := hmacSha1 key buf
    let off := (sum.getD (sum.length - 1) 0) &&& 0xf
    let trunc :=
      (((sum.getD off 0) &&& 0x7f) <<< 24) |||
      ((sum.getD (off + 1) 0) <<< 16) |||
      ((sum.getD (off + 2) 0) <<< 8) |||
      (sum.getD (off + 3) 0)
    .ok ((trunc % 1000000 : Nat) : Int)

/-- Loop body of AuthService.checkTOTP for one window: generate the code
for time `t` and compare (a failed generation is skipped, `continue`). -/
def probeTOTPWindow (secret : String) (t totp : Int) : Bool :=
  match GenerateTOTP secret t with
  | .error _ => false
  | .ok code => totp == code

/-- AuthService.checkTOTP. `now` is `as.now().Unix()`; the loop
`for i := -1; i <= 1; i++` probes `now + i*30` seconds, skipping windows
whose generation fails and accepting on the first match; a code equal to
`lastTOTP` is rejected up front. -/
def checkTOTP (now : Int) (secret : String) (totp lastTOTP : Int) : Bool :=
  if totp = lastTOTP then false
  else
    ([-1, 0, 1] : List Int).any (fun i =>
      probeTOTPWindow secret (now + i * 30) totp)

/-- The uniform failure message (const loginFailedMessage). -/
def loginFailedMessage : String := "Login failed"

/-- auth.UserCredentials (embeds models.User). -/
structure UserCredentials where
  user : User
  passwordHash : String
  totpSecret : String
  lastTOTP : Int
  failedLoginAttempts : Int
  lastAttemptTime : Int
deriving DecidableEq, Repr

/-- UserCredentials.ResetFailedLoginAttempts. -/
def UserCredentials.resetFailedLoginAttempts (uc : UserCredentials) (now : Int) :
    UserCredentials :=
  { uc with failedLoginAttempts := 0, lastAttemptTime := now }

/-- UserCredentials.IncrementFailedLoginAttempts. -/
def UserCredentials.incrementFailedLoginAttempts (uc : UserCredentials) (now : Int) :
    UserCredentials :=
  { uc with failedLoginAttempts := uc.failedLoginAttempts + 1, lastAttemptTime := now }

/-- auth.LoginRequest. -/
structure LoginRequest where
  username : String
  password : String
  totp : Int
deriving DecidableEq, Repr

/-- auth.LoginResponse (omitempty fields default to "" / 0). -/
structure LoginResponse where
  success : Bool
  message : String
  token : String
  tokenExpiry : Int
deriving DecidableEq, Repr

/-- The ambient dependencies of one `AuthService.Login` call:
`hashPassword` is the method `as.hashPassword` (HMAC-SHA-512 keyed with the
configured secret, base64-encoded — opaque to the login control flow);
`now` is `as.now().Unix()`; `genTokenResult` is the outcome of
`as.generateToken()` (crypto/rand); the two upsert results are the
outcomes of the storage calls made after a successful check. -/
structure AuthEnv where
  hashPassword : String → String → String
  now : Int
  tokenExpirySeconds : Int
  genTokenResult : Except Unit String
  upsertCredentialsResult : Except Unit Unit
  upsertTokenResult : Except Unit Unit

/-- Result of one `Login` call: the `(LoginResponse, string)` return value
of the Go method, plus the state of the caller's credentials record after
the call (`Login` mutates it through the `*UserCredentials` pointer;
`none` when no record was found). -/
structure LoginResult where
  resp : LoginResponse
  userID : String
  userAfter : Option UserCredentials

/-- AuthService.Login. `usernames` is the username → userID index
(`as.usernames.Get`), `users` the userID → credentials index
(`tx.Get` on `as.users`). The in-memory token indices (`liveTokens`,
`userTokens`) are not modelled; the storage errors after success are
logged and ignored by the source, which is mirrored here. -/
def login (env : AuthEnv) (usernames : String → Option String)
    (users : String → Option UserCredentials) (req : LoginRequest) : LoginResult :=
  match usernames req.username with
  | none => ⟨⟨false, loginFailedMessage, "", 0⟩, "", none⟩
  | some id =>
    match users id with
    | none => ⟨⟨false, loginFailedMessage, "", 0⟩, "", none⟩
    | some user =>
      if user.user.status ≠ userStatusActive then
        ⟨⟨false, loginFailedMessage, "", 0⟩, "", some user⟩
      else
        -- Check failed login attempts
        let nextAttempt := user.lastAttemptTime +
          30 * (user.failedLoginAttempts * user.failedLoginAttempts)
        if user.failedLoginAttempts > 3 ∧ env.now < nextAttempt then
          ⟨⟨false, "Too many failed login attempts. Next attempt in " ++
              toString (nextAttempt - env.now) ++ " seconds", "", 0⟩, "", some user⟩
        else
          -- Constant-time comparison of the password hashes (hmac.Equal)
          let currentHash := env.hashPassword req.username req.password
          if user.passwordHash ≠ currentHash then
            ⟨⟨false, loginFailedMessage, "", 0⟩, "",
              some (user.incrementFailedLoginAttempts env.now)⟩
          else if user.lastTOTP = -1 then
            ⟨⟨false, "User setup not completed", "", 0⟩, "", some user⟩
          -- Do not allow to reuse TOTP (possible replay attack).
          else if user.lastTOTP = req.totp then
            ⟨⟨false, loginFailedMessage, "", 0⟩, "",
              some (user.incrementFailedLoginAttempts env.now)⟩
          else if ¬ checkTOTP env.now user.totpSecret req.totp user.lastTOTP then
            ⟨⟨false, loginFailedMessage, "", 0⟩, "",
              some (user.incrementFailedLoginAttempts env.now)⟩
          else
            match env.genTokenResult with
            | .error _ => ⟨⟨false, "internal error", "", 0⟩, "", some user⟩
            | .ok token =>
              let user' := { user.resetFailedLoginAttempts env.now with
                               lastTOTP := req.totp }
              -- Storage failures after this point are logged and ignored:
              -- the in-memory session (liveTokens, userTokens) is already live.
              let _ := env.upsertCredentialsResult
              let _ := env.upsertTokenResult
              ⟨⟨true, "", token, env.now + env.tokenExpirySeconds⟩,
                user.user.id, some user'⟩

/-! ## internal/ws/hub.go -/

/-- getDMID: `sort.Strings([u1, u2])` then `fmt.Sprintf("dm_%s_%s", ...)`.
Sorting two strings ascending places the smaller first; Go compares byte
strings lexicographically, which on UTF-8 text coincides with Lean's
character-wise `<` on `String`. -/
def getDMID (u1 u2 : String) : String :=
  if u2 < u1 then "dm_" ++ u2 ++ "_" ++ u1 else "dm_" ++ u1 ++ "_" ++ u2

/-- isUserInDM: a chat id is a DM of `userID` when it has shape
`dm_<a>_<b>` (split on every underscore yielding exactly two parts) and one
of the parts equals `userID`. (IDs are ASCII, where Go's byte length and
slicing agree with Lean's character operations.) -/
def isUserInDM (userID chatID : String) : Bool :=
  if chatID.length < 4 || decide (chatID.take 3 ≠ "dm_") then false
  else
    let parts := (chatID.drop 3).splitOn "_"
    if parts.length ≠ 2 then false
    else parts.getD 0 "" == userID || parts.getD 1 "" == userID

/-- One Go channel of `models.ServerMessage` values: its capacity (fixed at
creation), buffered contents, and whether it has been closed. -/
structure Chan where
  cap : Nat
  buf : List ServerMessage
  closed : Bool
deriving DecidableEq, Repr

/-- ws.Hub. Channels are modelled as a store `chans` indexed by an
allocation counter `nextChan`, so that `make(chan ..., 100)` allocates a
fresh identity; `connectedUsers` maps a userID to the identity of its
current delivery queue. -/
structure HubState where
  chats : List (String × Chat)
  connectedUsers : String → Option Nat
  chans : Nat → Option Chan
  nextChan : Nat

/-- Hub.Join: allocate a fresh capacity-100 queue, store it under `userID`
(silently overwriting any queue already registered for that user — the old
queue is neither closed nor drained), and `Join` the user into townhall and
every DM whose id contains the user. Returns the new state and the new
queue's identity (the Go method returns the channel). -/
def hubJoin (h : HubState) (userID : String) : HubState × Nat :=
  let ch := h.nextChan
  ({ h with
     nextChan := ch + 1
     chans := fun i => if i = ch then some ⟨100, [], false⟩ else h.chans i
     connectedUsers := fun u => if u = userID then some ch else h.connectedUsers u
     chats := h.chats.map (fun p =>
       if p.1 == "townhall" || isUserInDM userID p.1 then (p.1, p.2.join userID)
       else p) },
   ch)

/-- Closing a channel (`close(ch)`). -/
def closeChan (c : Chan) : Chan := { c with closed := true }

/-- Hub.Leave: if the user has a registered queue, close it and remove the
registration; then `Leave` the user from every chat. -/
def hubLeave (h : HubState) (userID : String) : HubState :=
  let h1 : HubState :=
    match h.connectedUsers userID with
    | some ch =>
      { h with
        chans := fun i => if i = ch then (h.chans i).map closeChan else h.chans i
        connectedUsers := fun u => if u = userID then none else h.connectedUsers u }
    | none => h
  { h1 with chats := h1.chats.map (fun p => (p.1, p.2.leave userID)) }

/-- Hub.sendToUser: look up the user's current queue; if absent, drop.
Otherwise `select { case ch <- msg: default: }`: enqueue when the buffer
has room, drop (with a log) when it is full. (The hub only ever sends on
the queue currently registered, which is open.) -/
def sendToUser (h : HubState) (userID : String) (msg : ServerMessage) : HubState :=
  match h.connectedUsers userID with
  | none => h
  | some ch =>
    { h with
      chans := fun i =>
        if i = ch then
          (h.chans i).map (fun q =>
            if q.buf.length < q.cap then { q with buf := q.buf ++ [msg] } else q)
        else h.chans i }

/-! ## Predicates used by the claims -/

/-- Record at logical offset `k` of the ring (offset 0 = oldest in-memory
record), i.e. physical index `(head + k) % len`. -/
def Chat.ringAt (c : Chat) (k : Nat) : ChatRecord :=
  c.records.getD ((c.headIdx.toNat + k) % c.records.length) default

/-- Ring invariants of a non-empty chat, as established by sequences of
successful appends: the ring holds exactly the records with sequence
numbers `firstSeq .. lastSeq`, contiguous from the physical head. -/
structure ChatWFNE (c : Chat) : Prop where
  maxPos : 0 < c.maxRecords
  lenPos : 0 < c.records.length
  lenLe : (c.records.length : Int) ≤ c.maxRecords
  firstPos : 1 ≤ c.firstSeq
  span : (c.records.length : Int) = c.lastSeq - c.firstSeq + 1
  lastIdx : (c.records.length : Int) = c.maxRecords →
    0 ≤ c.lastIndex ∧ c.lastIndex < c.maxRecords
  ringSeq : ∀ k : Nat, k < c.records.length → (c.ringAt k).seq = c.firstSeq + k

/-- A chat state is well formed when it is the empty initial state or its
ring invariants hold. -/
def ChatWF (c : Chat) : Prop :=
  (c.lastSeq = 0 ∧ c.firstSeq = 0 ∧ c.records = []) ∨ ChatWFNE c

/-- The throttling gate of `Login` does not fire for this user at `now`. -/
def notThrottledAt (user : UserCredentials) (now : Int) : Prop :=
  ¬ (user.failedLoginAttempts > 3 ∧
     now < user.lastAttemptTime +
       30 * (user.failedLoginAttempts * user.failedLoginAttempts))

instance (user : UserCredentials) (now : Int) :
    Decidable (notThrottledAt user now) := by
  unfold notThrottledAt
  infer_instance

/-- The two index lookups of `Login` resolve `req.username` to `user`. -/
def loginLookup (usernames : String → Option String)
    (users : String → Option UserCredentials) (req : LoginRequest)
    (user : UserCredentials) : Prop :=
  ∃ id, usernames req.username = some id ∧ users id = some user

/-- Login failure case: the username (or the id it maps to) is unknown. -/
def loginCaseUnknownUser (usernames : String → Option String)
    (users : String → Option UserCredentials) (req : LoginRequest) : Prop :=
  usernames req.username = none ∨
    ∃ id, usernames req.username = some id ∧ users id = none

/-- Login failure case: the user exists but is not active (e.g. deleted). -/
def loginCaseInactiveUser (usernames : String → Option String)
    (users : String → Option UserCredentials) (req : LoginRequest) : Prop :=
  ∃ user, loginLookup usernames users req user ∧
    user.user.status ≠ userStatusActive

/-- Login failure case: active, not throttled, wrong password. -/
def loginCaseWrongPassword (env : AuthEnv) (usernames : String → Option String)
    (users : String → Option UserCredentials) (req : LoginRequest) : Prop :=
  ∃ user, loginLookup usernames users req user ∧
    user.user.status = userStatusActive ∧
    notThrottledAt user env.now ∧
    user.passwordHash ≠ env.hashPassword req.username req.password

/-- Login failure case: everything up to the password is fine, the user has
completed setup, and the supplied TOTP equals the stored `lastTOTP`
(replay). -/
def loginCaseReplayTOTP (env : AuthEnv) (usernames : String → Option String)
    (users : String → Option UserCredentials) (req : LoginRequest) : Prop :=
  ∃ user, loginLookup usernames users req user ∧
    user.user.status = userStatusActive ∧
    notThrottledAt user env.now ∧
    user.passwordHash = env.hashPassword req.username req.password ∧
    user.lastTOTP ≠ -1 ∧
    req.totp = user.lastTOTP

/-- Login failure case: as above but the TOTP differs from `lastTOTP` and
matches none of the three accepted windows. -/
def loginCaseOutOfWindowTOTP (env : AuthEnv) (usernames : String → Option String)
    (users : String → Option UserCredentials) (req : LoginRequest) : Prop :=
  ∃ user, loginLookup usernames users req user ∧
    user.user.status = userStatusActive ∧
    notThrottledAt user env.now ∧
    user.passwordHash = env.hashPassword req.username req.password ∧
    user.lastTOTP ≠ -1 ∧
    req.totp ≠ user.lastTOTP ∧
    checkTOTP env.now user.totpSecret req.totp user.lastTOTP = false

/-! ## Concrete fixtures used to instantiate theorems -/

/-- A hub with the single user "alice" connected through queue 0. -/
def hubW : HubState :=
  { chats := []
    connectedUsers := fun u => if u = "alice" then some 0 else none
    chans := fun i => if i = 0 then some ⟨100, [], false⟩ else none
    nextChan := 1 }

/-- A server message fixture. -/
def msgW : ServerMessage := ⟨"messages", "", false, "townhall", []⟩

/-- A stand-in for the keyed password hash closure in login instantiations
(the login control flow treats `as.hashPassword` as opaque). -/
def hashW : String → String → String := fun u p => "h:" ++ u ++ ":" ++ p

/-- An active, fully registered user with four failed login attempts
recorded at time 0 (so the throttling window ends at `30·4² = 480`). -/
def userW : UserCredentials :=
  { user := { id := "u1", userName := "alice", displayName := "Alice",
              avatarURL := "", presence := ⟨false, 0⟩,
              status := userStatusActive }
    passwordHash := hashW "alice" "pw1"
    totpSecret := ""
    lastTOTP := 0
    failedLoginAttempts := 4
    lastAttemptTime := 0 }

/-- Username index holding only "alice". -/
def usernamesW : String → Option String := fun n =>
  if n = "alice" then some "u1" else none

/-- Credentials index holding only `userW`. -/
def usersW : String → Option UserCredentials := fun i =>
  if i = "u1" then some userW else none

/-- Login request with alice's correct password and the TOTP of the empty
secret at unix time 480 (window counter 16). -/
def reqW : LoginRequest := ⟨"alice", "pw1", 304831⟩

/-- Login environment at time `now`, with all external calls succeeding. -/
def envW (now : Int) : AuthEnv :=
  { hashPassword := hashW
    now := now
    tokenExpirySeconds := 86400
    genTokenResult := .ok "tok123"
    upsertCredentialsResult := .ok ()
    upsertTokenResult := .ok () }

/-- An active, fully registered user with no failed attempts (storage
failure instantiations). -/
def user6 : UserCredentials :=
  { user := { id := "u2", userName := "bob", displayName := "Bob",
              avatarURL := "", presence := ⟨false, 0⟩,
              status := userStatusActive }
    passwordHash := hashW "bob" "pw2"
    totpSecret := ""
    lastTOTP := 0
    failedLoginAttempts := 0
    lastAttemptTime := 0 }

/-- Username index holding only "bob". -/
def usernames6 : String → Option String := fun n =>
  if n = "bob" then some "u2" else none

/-- Credentials index holding only `user6`. -/
def users6 : String → Option UserCredentials := fun i =>
  if i = "u2" then some user6 else none

/-- Login request with bob's correct password and the TOTP of the empty
secret at unix time 480. -/
def req6 : LoginRequest := ⟨"bob", "pw2", 304831⟩

/-- Login environment at time 480 in which both storage writes after a
successful check fail. -/
def env6 : AuthEnv :=
  { hashPassword := hashW
    now := 480
    tokenExpirySeconds := 86400
    genTokenResult := .ok "tok456"
    upsertCredentialsResult := .error ()
    upsertTokenResult := .error () }

/-- A capacity-2 chat after three successful appends (ring wrapped once):
ring holds seqs 2,3; firstSeq 2; lastSeq 3. -/
def chat7w : Chat :=
  ((Chat.new "c7w" 2 false).appendAll
    [⟨0, 0, "u", "m1", []⟩, ⟨0, 0, "u", "m2", []⟩, ⟨0, 0, "u", "m3", []⟩]).1

/-- A capacity-1 chat with storage after two successful appends: the ring
holds only seq 2, while seq 1 was persisted to storage. -/
def chat7s : Chat :=
  ((Chat.new "c7s" 1 true).appendAll
    [⟨0, 0, "u", "m1", []⟩, ⟨0, 0, "u", "m2", []⟩]).1

/-- A capacity-3 chat after four successful appends (ring wrapped once):
ring holds seqs 2,3,4; firstSeq 2; lastSeq 4. -/
def chat8w : Chat :=
  ((Chat.new "c8w" 3 false).appendAll
    [⟨0, 0, "v", "a", []⟩, ⟨0, 0, "v", "b", []⟩, ⟨0, 0, "v", "c", []⟩,
     ⟨0, 0, "v", "d", []⟩]).1

/-- A capacity-2 chat after three successful appends, used to exercise
`GetRecords` past `lastSeq + 1`. -/
def chat8c : Chat :=
  ((Chat.new "c8c" 2 false).appendAll
    [⟨0, 0, "w", "m1", []⟩, ⟨0, 0, "w", "m2", []⟩, ⟨0, 0, "w", "m3", []⟩]).1

/-! ## Theorems -/

set_option maxRecDepth 1000000
set_option maxHeartbeats 2000000

/-- One window probe of `checkTOTP` succeeds exactly when generation
succeeds with the probed code. -/
theorem probeWindow_eq_ok (s : String) (t totp : Int) :
    probeTOTPWindow s t totp = true ↔ GenerateTOTP s t = .ok totp := by
  unfold probeTOTPWindow
  rcases hg : GenerateTOTP s t with e | code
  · show false = true ↔ Except.error e = Except.ok totp
    constructor
    · intro hc; exact absurd hc (by intro hx; cases hx)
    · intro hc; exact absurd hc (by intro hx; cases hx)
  · show (totp == code) = true ↔ Except.ok code = Except.ok totp
    rw [beq_iff_eq]
    constructor
    · intro hc; rw [hc]
    · intro hc; cases hc; rfl

/-- C4: `checkTOTP` accepts a code iff it differs from `lastTOTP` and the
RFC 6238 SHA-1 TOTP generation for the secret yields that code at the
current time, 30 seconds earlier, or 30 seconds later; in particular a
code equal to `lastTOTP` is always rejected and a code matching no window
is rejected. -/
theorem checkTOTP_accepts_iff (now : Int) (secret : String) (totp lastTOTP : Int) :
    checkTOTP now secret totp lastTOTP = true ↔
      totp ≠ lastTOTP ∧
        (GenerateTOTP secret (now - 30) = .ok totp ∨
         GenerateTOTP secret now = .ok totp ∨
         GenerateTOTP secret (now + 30) = .ok totp) := by
  by_cases h : totp = lastTOTP
  · simp only [checkTOTP, if_pos h]
    constructor
    · intro hc; exact absurd hc (by intro hx; cases hx)
    · intro hc; exact absurd hc.1 (by intro hx; exact hx h)
  · have e1 : now + (-1) * 30 = now - 30 := by ring
    have e2 : now + 0 * 30 = now := by ring
    have e3 : now + 1 * 30 = now + 30 := by ring
    simp only [checkTOTP, if_neg h, List.any_cons, List.any_nil, Bool.or_false,
      Bool.or_eq_true, e1, e2, e3, probeWindow_eq_ok, ne_eq, h, not_false_iff,
      true_and, if_false]

/-- C9: DM chat id derivation is symmetric on distinct user ids, the
result is `dm_` followed by the two ids in lexicographic order joined by
an underscore, and it contains both ids as substrings. -/
theorem getDMID_symmetric (a b : String) (hne : a ≠ b) :
    getDMID a b = getDMID b a ∧
    ((a < b ∧ getDMID a b = "dm_" ++ a ++ "_" ++ b) ∨
     (b < a ∧ getDMID a b = "dm_" ++ b ++ "_" ++ a)) ∧
    (∃ s t, getDMID a b = s ++ a ++ t) ∧
    (∃ s t, getDMID a b = s ++ b ++ t) := by
  rcases lt_trichotomy a b with hab | hab | hab
  · have hba : ¬ b < a := lt_asymm hab
    have h1 : getDMID a b = "dm_" ++ a ++ "_" ++ b := by
      unfold getDMID; rw [if_neg hba]
    have h2 : getDMID b a = "dm_" ++ a ++ "_" ++ b := by
      unfold getDMID; rw [if_pos hab]
    refine ⟨h1.trans h2.symm, Or.inl ⟨hab, h1⟩,
      ⟨"dm_", "_" ++ b, by rw [h1]; simp [String.append_assoc]⟩,
      ⟨"dm_" ++ a ++ "_", "", by rw [h1]; simp⟩⟩
  · exact absurd hab hne
  · have hba : ¬ a < b := lt_asymm hab
    have h1 : getDMID a b = "dm_" ++ b ++ "_" ++ a := by
      unfold getDMID; rw [if_pos hab]
    have h2 : getDMID b a = "dm_" ++ b ++ "_" ++ a := by
      unfold getDMID; rw [if_neg hba]
    refine ⟨h1.trans h2.symm, Or.inr ⟨hab, h1⟩,
      ⟨"dm_" ++ b ++ "_", "", by rw [h1]; simp⟩,
      ⟨"dm_", "_" ++ a, by rw [h1]; simp [String.append_assoc]⟩⟩

/-- C9 witness at the concrete pair ("alice", "bob"). -/
theorem getDMID_symmetric_witness :
    "alice" ≠ "bob" ∧
    (getDMID "alice" "bob" = getDMID "bob" "alice" ∧
     (("alice" < "bob" ∧ getDMID "alice" "bob" = "dm_" ++ "alice" ++ "_" ++ "bob") ∨
      ("bob" < "alice" ∧ getDMID "alice" "bob" = "dm_" ++ "bob" ++ "_" ++ "alice")) ∧
     (∃ s t, getDMID "alice" "bob" = s ++ "alice" ++ t) ∧
     (∃ s t, getDMID "alice" "bob" = s ++ "bob" ++ t)) :=
  ⟨by decide, getDMID_symmetric "alice" "bob" (by decide)⟩

/-- C10: calling `Hub.Join` for a user that already has a registered
delivery queue silently replaces it with a freshly allocated capacity-100
queue: the user's registration points at the new, distinct queue; the old
queue is left untouched (in particular not closed); a subsequent delivery
to the user enqueues on the new queue and never reaches the old one; and a
later `Hub.Leave` closes the queue that is then current, still leaving the
old queue untouched. -/
theorem hubJoin_replaces_existing_queue (h : HubState) (u : String)
    (qOld : Nat) (msg : ServerMessage)
    (_hconn : h.connectedUsers u = some qOld) (hlt : qOld < h.nextChan) :
    ((hubJoin h u).1.connectedUsers u = some (hubJoin h u).2 ∧
      (hubJoin h u).2 ≠ qOld) ∧
    (hubJoin h u).1.chans (hubJoin h u).2 = some ⟨100, [], false⟩ ∧
    (hubJoin h u).1.chans qOld = h.chans qOld ∧
    ((sendToUser (hubJoin h u).1 u msg).chans qOld = h.chans qOld ∧
      (sendToUser (hubJoin h u).1 u msg).chans (hubJoin h u).2 =
        some ⟨100, [msg], false⟩) ∧
    ((hubLeave (hubJoin h u).1 u).chans (hubJoin h u).2 =
        some ⟨100, [], true⟩ ∧
      (hubLeave (hubJoin h u).1 u).chans qOld = h.chans qOld) := by
  have hne : qOld ≠ h.nextChan := Nat.ne_of_lt hlt
  refine ⟨⟨?_, ?_⟩, ?_, ?_, ⟨?_, ?_⟩, ⟨?_, ?_⟩⟩ <;>
    simp [hubJoin, hubLeave, sendToUser, closeChan, hne, Ne.symm hne]

/-- C10 witness: the hub `hubW` has "alice" connected through queue 0 and
one free queue id; re-joining replaces the queue as the theorem states. -/
theorem hubJoin_replaces_existing_queue_witness :
    hubW.connectedUsers "alice" = some 0 ∧ 0 < hubW.nextChan ∧
    (((hubJoin hubW "alice").1.connectedUsers "alice" =
        some (hubJoin hubW "alice").2 ∧
      (hubJoin hubW "alice").2 ≠ 0) ∧
    (hubJoin hubW "alice").1.chans (hubJoin hubW "alice").2 =
      some ⟨100, [], false⟩ ∧
    (hubJoin hubW "alice").1.chans 0 = hubW.chans 0 ∧
    ((sendToUser (hubJoin hubW "alice").1 "alice" msgW).chans 0 =
        hubW.chans 0 ∧
      (sendToUser (hubJoin hubW "alice").1 "alice" msgW).chans
          (hubJoin hubW "alice").2 = some ⟨100, [msgW], false⟩) ∧
    ((hubLeave (hubJoin hubW "alice").1 "alice").chans
        (hubJoin hubW "alice").2 = some ⟨100, [], true⟩ ∧
      (hubLeave (hubJoin hubW "alice").1 "alice").chans 0 =
        hubW.chans 0)) :=
  ⟨rfl, Nat.zero_lt_one,
    hubJoin_replaces_existing_queue hubW "alice" 0 msgW rfl Nat.zero_lt_one⟩

/-- Any `AddRecord` call increments `lastSeq` by exactly one, even when the
persistence step fails (the increment happens before the persist). -/
theorem addRecord_lastSeq (c : Chat) (pr : Except Unit Unit) (r : ChatRecord) :
    (c.addRecord pr r).1.lastSeq = c.lastSeq + 1 := by
  unfold Chat.addRecord
  dsimp only
  split
  · rfl
  · split <;> rfl

/-- A successful `AddRecord` hands out the record with `seq = lastSeq + 1`. -/
theorem addRecord_ok_seq (c : Chat) (pr : Except Unit Unit) (r : ChatRecord)
    (out : ChatRecord × List String) (h : (c.addRecord pr r).2 = .ok out) :
    out.1.seq = c.lastSeq + 1 := by
  unfold Chat.addRecord at h
  dsimp only at h
  revert h
  split
  · intro h; cases h
  · split <;> (intro h; cases h; rfl)

/-- With a succeeding persist, `AddRecord` never fails. -/
theorem addRecord_okPersist_isOk (c : Chat) (r : ChatRecord) :
    ∃ rcv, (c.addRecord (.ok ()) r).2 = .ok ({ r with seq := c.lastSeq + 1 }, rcv) := by
  unfold Chat.addRecord
  dsimp only
  simp only [exceptIsError, Bool.and_false, Bool.false_eq_true, if_false]
  split <;> exact ⟨_, rfl⟩

/-- Sequence numbers handed out by a run of successful appends: starting
from any chat, the `n` appended records get `lastSeq + 1, …, lastSeq + n`. -/
theorem appendAll_spec (recs : List ChatRecord) : ∀ c : Chat,
    (c.appendAll recs).1.lastSeq = c.lastSeq + recs.length ∧
    (c.appendAll recs).2.map (fun r => r.seq) =
      (List.range recs.length).map (fun k : Nat => c.lastSeq + (k : Int) + 1) := by
  induction recs with
  | nil => intro c; simp [Chat.appendAll]
  | cons r rest ih =>
    intro c
    obtain ⟨rcv, hok⟩ := addRecord_okPersist_isOk c r
    have hpair : c.addRecord (.ok ()) r =
        ((c.addRecord (.ok ()) r).1, .ok ({ r with seq := c.lastSeq + 1 }, rcv)) := by
      rw [← hok]
    have hseq := addRecord_lastSeq c (.ok ()) r
    obtain ⟨ih1, ih2⟩ := ih (c.addRecord (.ok ()) r).1
    constructor
    · show ((c.appendAll (r :: rest)).1).lastSeq = _
      rw [Chat.appendAll, hpair]
      dsimp only
      rw [ih1, hseq]
      simp only [List.length_cons]
      push_cast
      ring
    · rw [Chat.appendAll, hpair]
      dsimp only [List.map_cons]
      rw [ih2, hseq, List.length_cons, List.range_succ_eq_map, List.map_cons,
        List.map_map]
      congr 1
      · push_cast
        ring
      · apply List.map_congr_left
        intro k _
        simp only [Function.comp_apply]
        push_cast
        ring

/-- C1: `lastSeq` increases by exactly one per successful append and, for
any sequence of successful `AddRecord` calls on a freshly created chat
(with a positive ring capacity, as the hub always configures), the
appended records carry the sequence numbers `1, 2, …, n` — strictly
increasing, dense, no gaps, no duplicates — and the final `lastSeq` is
`n`. -/
theorem addRecord_seq_dense :
    (∀ (c : Chat) (pr : Except Unit Unit) (r : ChatRecord) (c' : Chat)
        (out : ChatRecord × List String),
        c.addRecord pr r = (c', .ok out) →
        c'.lastSeq = c.lastSeq + 1 ∧ out.1.seq = c.lastSeq + 1) ∧
    (∀ (id : String) (mr : Int) (stor : Bool) (recs : List ChatRecord),
        1 ≤ mr →
        ((Chat.new id mr stor).appendAll recs).2.map (fun r => r.seq) =
          (List.range recs.length).map (fun k : Nat => (k : Int) + 1) ∧
        ((Chat.new id mr stor).appendAll recs).1.lastSeq = (recs.length : Int)) := by
  constructor
  · intro c pr r c' out h
    have h1 : (c.addRecord pr r).1 = c' := by rw [h]
    have h2 : (c.addRecord pr r).2 = .ok out := by rw [h]
    exact ⟨h1 ▸ addRecord_lastSeq c pr r, addRecord_ok_seq c pr r out h2⟩
  · intro id mr stor recs _
    obtain ⟨h1, h2⟩ := appendAll_spec recs (Chat.new id mr stor)
    refine ⟨?_, ?_⟩
    · rw [h2]
      apply List.map_congr_left
      intro k _
      show (Chat.new id mr stor).lastSeq + (k : Int) + 1 = (k : Int) + 1
      simp [Chat.new]
    · rw [h1]
      simp [Chat.new]

/-- C1 witness: one successful append on an empty capacity-3 chat yields
seq 1, and appending two records to a fresh chat yields seqs [1, 2] with
lastSeq 2. -/
theorem addRecord_seq_dense_witness :
    ((Chat.new "w" 3 false).addRecord (.ok ()) ⟨0, 1, "u", "hi", []⟩ =
      ({ id := "w", name := "", records := [⟨1, 1, "u", "hi", []⟩],
         members := [], firstSeq := 1, lastSeq := 1, lastIndex := 0,
         maxRecords := 3, hasStorage := false },
       .ok (⟨1, 1, "u", "hi", []⟩, []))) ∧
    (({ id := "w", name := "", records := [⟨1, 1, "u", "hi", []⟩],
        members := [], firstSeq := 1, lastSeq := 1, lastIndex := 0,
        maxRecords := 3, hasStorage := false } : Chat).lastSeq = 1 ∧
      (((⟨1, 1, "u", "hi", []⟩ : ChatRecord), ([] : List String)).1.seq = 1)) ∧
    (1 : Int) ≤ 2 ∧
    (((Chat.new "w2" 2 false).appendAll
        [⟨0, 1, "u", "a", []⟩, ⟨0, 2, "u", "b", []⟩]).2.map (fun r => r.seq) =
      (List.range 2).map (fun k : Nat => (k : Int) + 1) ∧
     ((Chat.new "w2" 2 false).appendAll
        [⟨0, 1, "u", "a", []⟩, ⟨0, 2, "u", "b", []⟩]).1.lastSeq = 2) :=
  ⟨by decide,
   addRecord_seq_dense.1 (Chat.new "w" 3 false) (.ok ()) ⟨0, 1, "u", "hi", []⟩
     { id := "w", name := "", records := [⟨1, 1, "u", "hi", []⟩],
       members := [], firstSeq := 1, lastSeq := 1, lastIndex := 0,
       maxRecords := 3, hasStorage := false }
     (⟨1, 1, "u", "hi", []⟩, []) (by decide),
   by decide,
   addRecord_seq_dense.2 "w2" 2 false
     [⟨0, 1, "u", "a", []⟩, ⟨0, 2, "u", "b", []⟩] (by decide)⟩

/-- C2 (code bug): on a persistence failure, `AddRecord` returns the
failure and leaves the ring, `firstSeq`, `lastIndex`, members and the
callback untouched — but `lastSeq` has already been incremented and is not
rolled back: on the empty chat it ends at 1 instead of staying 0. -/
theorem addRecord_persist_failure_keeps_increment :
    ((Chat.new "c2" 10 true).addRecord (.error ()) ⟨0, 5, "u", "hello", []⟩).2 =
      .error () ∧
    ((Chat.new "c2" 10 true).addRecord (.error ()) ⟨0, 5, "u", "hello", []⟩).1 =
      { Chat.new "c2" 10 true with lastSeq := 1 } ∧
    (Chat.new "c2" 10 true).lastSeq = 0 := by
  decide

/-- C3: the login decision procedure returns the identical "Login failed"
message (and no success) for an unknown username, an inactive (deleted)
user, a wrong password, a replayed TOTP, and an out-of-window TOTP; no one
of these cases is distinguishable from another by the returned message. -/
theorem login_uniform_failure (env : AuthEnv) (usernames : String → Option String)
    (users : String → Option UserCredentials) (req : LoginRequest)
    (h : loginCaseUnknownUser usernames users req ∨
         loginCaseInactiveUser usernames users req ∨
         loginCaseWrongPassword env usernames users req ∨
         loginCaseReplayTOTP env usernames users req ∨
         loginCaseOutOfWindowTOTP env usernames users req) :
    (login env usernames users req).resp.message = "Login failed" ∧
    (login env usernames users req).resp.success = false := by
  obtain h | h | h | h | h := h
  · obtain h0 | ⟨id, hu, hid⟩ := h
    · unfold login
      rw [h0]
      exact ⟨rfl, rfl⟩
    · unfold login
      rw [hu]
      dsimp only
      rw [hid]
      exact ⟨rfl, rfl⟩
  · obtain ⟨user, ⟨id, hu, hid⟩, hst⟩ := h
    unfold login
    rw [hu]
    dsimp only
    rw [hid]
    dsimp only
    rw [if_pos hst]
    exact ⟨rfl, rfl⟩
  · obtain ⟨user, ⟨id, hu, hid⟩, hactive, hnt, hpw⟩ := h
    unfold login
    rw [hu]
    dsimp only
    rw [hid]
    dsimp only
    rw [if_neg (not_not_intro hactive), if_neg hnt, if_pos hpw]
    exact ⟨rfl, rfl⟩
  · obtain ⟨user, ⟨id, hu, hid⟩, hactive, hnt, hpw, hsetup, hreplay⟩ := h
    unfold login
    rw [hu]
    dsimp only
    rw [hid]
    dsimp only
    rw [if_neg (not_not_intro hactive), if_neg hnt,
      if_neg (not_not_intro hpw), if_neg hsetup, if_pos hreplay.symm]
    exact ⟨rfl, rfl⟩
  · obtain ⟨user, ⟨id, hu, hid⟩, hactive, hnt, hpw, hsetup, hneq, hwin⟩ := h
    unfold login
    rw [hu]
    dsimp only
    rw [hid]
    dsimp only
    rw [if_neg (not_not_intro hactive), if_neg hnt,
      if_neg (not_not_intro hpw), if_neg hsetup,
      if_neg (fun he => hneq he.symm), if_pos (by simp [hwin])]
    exact ⟨rfl, rfl⟩

/-- C3 witness: an unknown username gets the uniform failure. -/
theorem login_uniform_failure_witness :
    loginCaseUnknownUser (fun _ => none) (fun _ => none) ⟨"nobody", "x", 0⟩ ∧
    ((login (envW 0) (fun _ => none) (fun _ => none)
        ⟨"nobody", "x", 0⟩).resp.message = "Login failed" ∧
      (login (envW 0) (fun _ => none) (fun _ => none)
        ⟨"nobody", "x", 0⟩).resp.success = false) :=
  ⟨Or.inl rfl,
    login_uniform_failure (envW 0) (fun _ => none) (fun _ => none)
      ⟨"nobody", "x", 0⟩ (Or.inl (Or.inl rfl))⟩

/-- C5: for a known active user with more than three failed attempts,
every login attempt before `lastAttemptTime + 30·failedLoginAttempts²` is
rejected with the throttling message (whatever the credentials), and from
that moment on an attempt with correct credentials succeeds. -/
theorem login_throttling (env : AuthEnv) (usernames : String → Option String)
    (users : String → Option UserCredentials) (req : LoginRequest)
    (id : String) (user : UserCredentials)
    (hu : usernames req.username = some id) (hid : users id = some user)
    (hactive : user.user.status = userStatusActive)
    (hfa : user.failedLoginAttempts > 3) :
    (env.now < user.lastAttemptTime +
        30 * (user.failedLoginAttempts * user.failedLoginAttempts) →
      (login env usernames users req).resp =
        ⟨false, "Too many failed login attempts. Next attempt in " ++
          toString (user.lastAttemptTime +
            30 * (user.failedLoginAttempts * user.failedLoginAttempts) -
            env.now) ++ " seconds", "", 0⟩) ∧
    (user.lastAttemptTime +
        30 * (user.failedLoginAttempts * user.failedLoginAttempts) ≤ env.now →
      user.passwordHash = env.hashPassword req.username req.password →
      user.lastTOTP ≠ -1 →
      req.totp ≠ user.lastTOTP →
      checkTOTP env.now user.totpSecret req.totp user.lastTOTP = true →
      ∀ tok : String, env.genTokenResult = .ok tok →
      (login env usernames users req).resp =
        ⟨true, "", tok, env.now + env.tokenExpirySeconds⟩) := by
  constructor
  · intro hlt
    unfold login
    rw [hu]
    dsimp only
    rw [hid]
    dsimp only
    rw [if_neg (not_not_intro hactive), if_pos ⟨hfa, hlt⟩]
  · intro hge hpw hsetup hne hck tok htok
    unfold login
    rw [hu]
    dsimp only
    rw [hid]
    dsimp only
    rw [if_neg (not_not_intro hactive),
      if_neg (fun hc => absurd hc.2 (not_lt.mpr hge)),
      if_neg (not_not_intro hpw), if_neg hsetup,
      if_neg (fun he => hne he.symm), if_neg (by simp [hck]), htok]

/-- C5 witness: with four failed attempts recorded at time 0 the window
ends at 480; at time 479 even the correct credentials get the throttling
message, and at time 480 they succeed. -/
theorem login_throttling_witness :
    (login (envW 479) usernamesW usersW reqW).resp =
      ⟨false, "Too many failed login attempts. Next attempt in 1 seconds",
        "", 0⟩ ∧
    (login (envW 480) usernamesW usersW reqW).resp =
      ⟨true, "", "tok123", 86880⟩ :=
  ⟨(login_throttling (envW 479) usernamesW usersW reqW "u1" userW rfl rfl rfl
      (by decide)).1 (by decide),
   (login_throttling (envW 480) usernamesW usersW reqW "u1" userW rfl rfl rfl
      (by decide)).2 (by decide) rfl (by decide) (by decide) (by decide)
      "tok123" rfl⟩

/-- C6 counterexample: at time 480 bob supplies correct credentials, both
storage writes fail, and `Login` nevertheless returns a success response —
the storage failure is not propagated. -/
theorem login_storage_failure_success_cex :
    env6.upsertCredentialsResult = .error () ∧
    env6.upsertTokenResult = .error () ∧
    (login env6 usernames6 users6 req6).resp.success = true := by
  refine ⟨rfl, rfl, ?_⟩
  decide

/-- C6 amended: when the password and TOTP checks pass and token
generation succeeds, `Login` returns the success response regardless of
the outcomes of `UpsertCredentials` and `UpsertToken` — those failures are
only logged (the in-memory session is already established). -/
theorem login_storage_failure_ignored (env : AuthEnv)
    (usernames : String → Option String)
    (users : String → Option UserCredentials) (req : LoginRequest)
    (id : String) (user : UserCredentials)
    (hu : usernames req.username = some id) (hid : users id = some user)
    (hactive : user.user.status = userStatusActive)
    (hnt : notThrottledAt user env.now)
    (hpw : user.passwordHash = env.hashPassword req.username req.password)
    (hsetup : user.lastTOTP ≠ -1) (hne : req.totp ≠ user.lastTOTP)
    (hck : checkTOTP env.now user.totpSecret req.totp user.lastTOTP = true)
    (tok : String) (htok : env.genTokenResult = .ok tok)
    (e1 e2 : Except Unit Unit) :
    (login { env with upsertCredentialsResult := e1, upsertTokenResult := e2 }
        usernames users req).resp =
      ⟨true, "", tok, env.now + env.tokenExpirySeconds⟩ := by
  unfold login
  rw [hu]
  dsimp only
  rw [hid]
  dsimp only
  rw [if_neg (not_not_intro hactive), if_neg hnt,
    if_neg (not_not_intro hpw), if_neg hsetup,
    if_neg (fun he => hne he.symm), if_neg (by simp [hck]), htok]

/-- C6 witness for the amended statement, at bob's concrete credentials
with both storage writes failing. -/
theorem login_storage_failure_ignored_witness :
    (login { env6 with upsertCredentialsResult := .error (),
                       upsertTokenResult := .error () }
        usernames6 users6 req6).resp = ⟨true, "", "tok456", 86880⟩ :=
  login_storage_failure_ignored env6 usernames6 users6 req6 "u2" user6
    rfl rfl rfl (by decide) rfl (by decide) (by decide) (by decide)
    "tok456" rfl (.error ()) (.error ())

/-- Reading `count` records from physical index `s` of the ring returns
exactly the records at indices `(s+k) % len`. -/
theorem ringSlice_spec (records : List ChatRecord) (s c : Nat)
    (hs : s < records.length) (hc2 : c ≤ records.length) :
    (ringSlice records (s : Int) (c : Int)).length = c ∧
    ∀ k, k < c → (ringSlice records (s : Int) (c : Int)).getD k default =
      records.getD ((s + k) % records.length) default := by
  unfold ringSlice
  simp only [Int.toNat_natCast]
  by_cases hbr : (s : Int) + (c : Int) ≤ (records.length : Int)
  · rw [if_pos hbr]
    have hsc : s + c ≤ records.length := by exact_mod_cast hbr
    constructor
    · simp only [List.length_take, List.length_drop]
      omega
    · intro k hk
      rw [List.getD_eq_getElem?_getD, List.getD_eq_getElem?_getD,
        List.getElem?_take_of_lt hk, List.getElem?_drop]
      congr 2
      rw [Nat.mod_eq_of_lt (by omega)]
  · rw [if_neg hbr]
    have hgt : records.length < s + c := by
      have := not_le.mp hbr
      exact_mod_cast this
    have htake : ((c : Int) - ((records.length : Int) - (s : Int))).toNat =
        c - (records.length - s) := by omega
    constructor
    · simp only [List.length_append, List.length_drop, List.length_take, htake]
      omega
    · intro k hk
      rw [List.getD_eq_getElem?_getD, List.getD_eq_getElem?_getD, htake]
      by_cases hk1 : k < records.length - s
      · rw [List.getElem?_append_left (by simp only [List.length_drop]; omega),
          List.getElem?_drop]
        congr 2
        rw [Nat.mod_eq_of_lt (by omega)]
      · rw [List.getElem?_append_right (by simp only [List.length_drop]; omega)]
        simp only [List.length_drop]
        rw [List.getElem?_take_of_lt (by omega)]
        congr 2
        rw [Nat.mod_eq_sub_mod (by omega), Nat.mod_eq_of_lt (by omega)]
        omega

/-- The head index of a well-formed non-empty ring is a valid physical
index. -/
theorem headIdx_bounds (c : Chat) (hwf : ChatWFNE c) :
    0 ≤ c.headIdx ∧ c.headIdx < (c.records.length : Int) := by
  have hmax := hwf.maxPos
  have hlen := hwf.lenPos
  unfold Chat.headIdx
  by_cases h : (c.records.length : Int) = c.maxRecords
  · rw [if_pos h]
    obtain ⟨h0, h1⟩ := hwf.lastIdx h
    rw [Int.tmod_eq_emod (by omega) (by omega)]
    refine ⟨Int.emod_nonneg _ (by omega), ?_⟩
    rw [h]
    exact Int.emod_lt_of_pos _ (by omega)
  · rw [if_neg h]
    exact ⟨le_refl 0, by exact_mod_cast hlen⟩

/-- The in-memory read step shared by `GetRecords` and `GetLastRecords`:
on a well-formed chat it returns exactly the records with sequence numbers
`mFrom, …, mFrom + count - 1`, in order. -/
theorem memRead_spec (c : Chat) (hwf : ChatWFNE c) (mFrom count : Int)
    (h1 : c.firstSeq ≤ mFrom) (h2 : 0 < count)
    (h3 : mFrom + count ≤ c.lastSeq + 1) :
    (ringSlice c.records
      (Int.tmod (c.headIdx + (mFrom - c.firstSeq)) (c.records.length : Int))
      count).length = count.toNat ∧
    ∀ k, k < count.toNat →
      ((ringSlice c.records
        (Int.tmod (c.headIdx + (mFrom - c.firstSeq)) (c.records.length : Int))
        count).getD k default).seq = mFrom + (k : Int) := by
  have hL : 0 < c.records.length := hwf.lenPos
  have hspan := hwf.span
  obtain ⟨hh0, hh1⟩ := headIdx_bounds c hwf
  have hoff0 : (0 : Int) ≤ mFrom - c.firstSeq := by omega
  have hX0 : (0 : Int) ≤ c.headIdx + (mFrom - c.firstSeq) := by omega
  have hcl : count ≤ (c.records.length : Int) := by omega
  -- rewrite the start index into a natural-number form
  have hsNat : Int.tmod (c.headIdx + (mFrom - c.firstSeq)) (c.records.length : Int) =
      (((c.headIdx + (mFrom - c.firstSeq)).toNat % c.records.length : Nat) : Int) := by
    rw [Int.tmod_eq_emod hX0 (by positivity)]
    rw [← Int.toNat_of_nonneg hX0]
    push_cast
    rfl
  have hcNat : count = ((count.toNat : Nat) : Int) :=
    (Int.toNat_of_nonneg (le_of_lt h2)).symm
  rw [hsNat, hcNat]
  have hsN : (c.headIdx + (mFrom - c.firstSeq)).toNat % c.records.length <
      c.records.length := Nat.mod_lt _ hL
  have hcN : count.toNat ≤ c.records.length := by omega
  obtain ⟨hlen, hget⟩ := ringSlice_spec c.records _ count.toNat hsN hcN
  refine ⟨by rw [hlen]; omega, ?_⟩
  intro k hk
  rw [hget k hk]
  have hidx : ((c.headIdx + (mFrom - c.firstSeq)).toNat % c.records.length + k) %
      c.records.length =
      (c.headIdx.toNat + ((mFrom - c.firstSeq).toNat + k)) % c.records.length := by
    rw [Nat.mod_add_mod]
    congr 1
    omega
  rw [hidx]
  have hjlt : (mFrom - c.firstSeq).toNat + k < c.records.length := by omega
  have := hwf.ringSeq ((mFrom - c.firstSeq).toNat + k) hjlt
  unfold Chat.ringAt at this
  rw [this]
  push_cast
  omega

/-- A list whose k-th record has sequence number `base + k` is strictly
sorted by sequence number. -/
theorem pairwise_seq_of_arith (l : List ChatRecord) (base : Int)
    (hpt : ∀ k, k < l.length → (l.getD k default).seq = base + (k : Int)) :
    List.Pairwise (fun x y : ChatRecord => x.seq < y.seq) l := by
  rw [List.pairwise_iff_getElem]
  intro i j hi hj hij
  have hi' := hpt i hi
  have hj' := hpt j hj
  rw [List.getD_eq_getElem?_getD, List.getElem?_eq_getElem hi] at hi'
  rw [List.getD_eq_getElem?_getD, List.getElem?_eq_getElem hj] at hj'
  simp only [Option.getD_some] at hi' hj'
  rw [hi', hj']
  omega

/-- Bounds for the members of a list whose k-th record has sequence
number `base + k`. -/
theorem mem_seq_bounds_of_arith (l : List ChatRecord) (base : Int)
    (hpt : ∀ k, k < l.length → (l.getD k default).seq = base + (k : Int)) :
    ∀ x ∈ l, base ≤ x.seq ∧ x.seq ≤ base + (l.length : Int) - 1 := by
  intro x hx
  obtain ⟨i, hi, hxe⟩ := List.mem_iff_getElem.mp hx
  have hp := hpt i hi
  rw [List.getD_eq_getElem?_getD, List.getElem?_eq_getElem hi] at hp
  simp only [Option.getD_some] at hp
  rw [← hxe, hp]
  omega

/-- C7 amended: `GetLastRecords(n)` serves only the in-memory ring: it
returns exactly the last `min n (lastSeq - firstSeq + 1)` in-memory
records, in ascending sequence order; an older prefix held only in storage
is never fetched. -/
theorem getLastRecords_memory_only (c : Chat) (hwf : ChatWFNE c) (n : Int)
    (hn : 0 < n) :
    (c.getLastRecords n).length = (min n (c.lastSeq - c.firstSeq + 1)).toNat ∧
    ∀ k : Nat, k < (min n (c.lastSeq - c.firstSeq + 1)).toNat →
      ((c.getLastRecords n).getD k default).seq =
        c.lastSeq - min n (c.lastSeq - c.firstSeq + 1) + 1 + (k : Int) := by
  have hlen := hwf.lenPos
  have hspan := hwf.span
  have hfirst := hwf.firstPos
  have hlast0 : ¬ (c.lastSeq = 0) := by omega
  unfold Chat.getLastRecords
  rw [if_neg hlast0]
  dsimp only
  have hcount : (if n > c.lastSeq - c.firstSeq + 1 then c.lastSeq - c.firstSeq + 1
      else n) = min n (c.lastSeq - c.firstSeq + 1) := by
    rcases le_or_lt n (c.lastSeq - c.firstSeq + 1) with h | h
    · rw [if_neg (not_lt.mpr h), min_eq_left h]
    · rw [if_pos h, min_eq_right (le_of_lt h)]
  rw [hcount]
  exact memRead_spec c hwf (c.lastSeq - min n (c.lastSeq - c.firstSeq + 1) + 1)
    (min n (c.lastSeq - c.firstSeq + 1)) (by omega) (by omega) (by omega)

/-- C8 amended: for requests with `to ≤ lastSeq + 1`, `GetRecords`
returns without failure whenever the storage reads it issues succeed and
return messages sorted within the requested range; the result is strictly
ordered by sequence number, and an empty range yields the empty list. (For
`to > lastSeq + 1` the ring read wraps past the newest record and repeats
records, so the original unrestricted claim fails; see the
counterexample.) -/
theorem getRecords_sorted (c : Chat) (hwf : ChatWF c)
    (listMessages : Int → Int → Except Unit (List Message))
    (hstore : ∀ a b : Int, ∃ l, listMessages a b = .ok l ∧
        List.Pairwise (fun x y : Message => x.seq < y.seq) l ∧
        ∀ m ∈ l, a ≤ m.seq ∧ m.seq ≤ b)
    (from_ to_ : Int) (hto : to_ ≤ c.lastSeq + 1) :
    ∃ l, c.getRecords listMessages from_ to_ = .ok l ∧
      List.Pairwise (fun x y : ChatRecord => x.seq < y.seq) l ∧
      (to_ ≤ from_ → l = []) := by
  rcases hwf with ⟨h0, _, _⟩ | hwf
  · refine ⟨[], ?_, List.Pairwise.nil, fun _ => rfl⟩
    unfold Chat.getRecords
    rw [if_pos h0]
  · have hlen := hwf.lenPos
    have hspan := hwf.span
    have hfp := hwf.firstPos
    have hlast0 : ¬ (c.lastSeq = 0) := by omega
    have hlen0 : ¬ (c.records.length = 0) := by omega
    unfold Chat.getRecords
    rw [if_neg hlast0]
    dsimp only
    simp only [if_neg hlen0]
    by_cases hS : from_ < c.firstSeq ∧ c.hasStorage = true
    · -- storage prefix is consulted
      obtain ⟨l0, hl0, hl0sorted, hl0mem⟩ :=
        hstore from_ ((if to_ > c.firstSeq then c.firstSeq else to_) - 1)
      rw [if_pos (by simp [hS.1, hS.2]), hl0]
      dsimp only
      by_cases hT : to_ > c.firstSeq
      · rw [if_pos hT]
        simp only [if_pos hS.1, if_pos hT] at hl0mem ⊢
        rw [if_pos (show ((c.firstSeq < to_ : Prop) && (c.firstSeq ≤ c.firstSeq : Prop) : Bool) = true by simp [hT])]
        obtain ⟨hmlen, hmpt⟩ := memRead_spec c hwf c.firstSeq (to_ - c.firstSeq)
          (le_refl _) (by omega) (by omega)
        refine ⟨_, rfl, ?_, ?_⟩
        · rw [List.pairwise_append]
          refine ⟨?_, ?_, ?_⟩
          · rw [List.pairwise_map]
            exact hl0sorted.imp (fun h => h)
          · exact pairwise_seq_of_arith _ c.firstSeq (fun k hk => hmpt k (by omega))
          · intro a ha b hb
            obtain ⟨m, hm, rfl⟩ := List.mem_map.mp ha
            have h1 := (hl0mem m hm).2
            have h2 := (mem_seq_bounds_of_arith _ c.firstSeq
              (fun k hk => hmpt k (by omega)) b hb).1
            show m.seq < b.seq
            omega
        · intro hh
          omega
      · rw [if_neg hT]
        simp only [if_neg hT] at hl0mem
        refine ⟨_, rfl, ?_, ?_⟩
        · rw [List.pairwise_map]
          exact hl0sorted.imp (fun h => h)
        · intro hh
          have : l0 = [] := by
            rw [List.eq_nil_iff_forall_not_mem]
            intro m hm
            have := hl0mem m hm
            omega
          rw [this]
          rfl
    · -- no storage prefix
      rw [if_neg (by
        intro hb
        rw [Bool.and_eq_true, decide_eq_true_eq] at hb
        exact hS ⟨hb.1, hb.2⟩)]
      dsimp only
      by_cases hT : to_ > c.firstSeq
      · rw [if_pos hT]
        by_cases hF : from_ < c.firstSeq
        · simp only [if_pos hF]
          rw [if_pos (show ((c.firstSeq < to_ : Prop) && (c.firstSeq ≤ c.firstSeq : Prop) : Bool) = true by simp [hT])]
          obtain ⟨hmlen, hmpt⟩ := memRead_spec c hwf c.firstSeq (to_ - c.firstSeq)
            (le_refl _) (by omega) (by omega)
          refine ⟨_, rfl, ?_, ?_⟩
          · rw [List.nil_append]
            exact pairwise_seq_of_arith _ c.firstSeq (fun k hk => hmpt k (by omega))
          · intro hh
            omega
        · simp only [if_neg hF]
          by_cases hFT : from_ < to_
          · rw [if_pos (show ((from_ < to_ : Prop) && (c.firstSeq ≤ from_ : Prop) : Bool) = true by
              simp [hFT]
              omega)]
            obtain ⟨hmlen, hmpt⟩ := memRead_spec c hwf from_ (to_ - from_)
              (by omega) (by omega) (by omega)
            refine ⟨_, rfl, ?_, ?_⟩
            · rw [List.nil_append]
              exact pairwise_seq_of_arith _ from_ (fun k hk => hmpt k (by omega))
            · intro hh
              omega
          · rw [if_neg (by
              intro hb
              rw [Bool.and_eq_true, decide_eq_true_eq] at hb
              exact hFT hb.1)]
            exact ⟨[], rfl, List.Pairwise.nil, fun _ => rfl⟩
      · rw [if_neg hT]
        exact ⟨[], rfl, List.Pairwise.nil, fun _ => rfl⟩

/-- C8 counterexample: on a capacity-2 chat holding seqs 2,3, the request
`GetRecords(2, 5)` (where `to = lastSeq + 2`) succeeds but returns seqs
2,3,2 — not strictly ascending, refuting the claim for arbitrary `to`. -/
theorem getRecords_wraparound_unsorted_cex :
    (chat8c.getRecords (fun _ _ => .ok []) 2 5 =
      .ok [⟨2, 0, "w", "m2", []⟩, ⟨3, 0, "w", "m3", []⟩, ⟨2, 0, "w", "m2", []⟩]) ∧
    ¬ List.Pairwise (fun x y : ChatRecord => x.seq < y.seq)
      [(⟨2, 0, "w", "m2", []⟩ : ChatRecord), ⟨3, 0, "w", "m3", []⟩,
       ⟨2, 0, "w", "m2", []⟩] := by
  constructor
  · decide
  · decide

/-- C8 witness: on a concrete wrapped capacity-3 chat (seqs 2,3,4), the
full-range request `GetRecords(2, 5)` with `to = lastSeq + 1` is sorted. -/
theorem getRecords_sorted_witness :
    ∃ l, chat8w.getRecords (fun _ _ => .ok []) 2 5 = .ok l ∧
      List.Pairwise (fun x y : ChatRecord => x.seq < y.seq) l ∧
      ((5 : Int) ≤ 2 → l = []) :=
  getRecords_sorted chat8w
    (Or.inr ⟨by decide, by decide, by decide, by decide, by decide, by decide,
      by decide⟩)
    (fun _ _ => .ok [])
    (fun _ _ => ⟨[], rfl, List.Pairwise.nil,
      fun m hm => absurd hm (List.not_mem_nil m)⟩)
    2 5 (by decide)

/-- C7 counterexample: a capacity-1 chat with storage after two appends
(storage holds seqs 1 and 2) answers `GetLastRecords(2)` with only the one
in-memory record of seq 2 — the missing prefix is not fetched from
storage, refuting the claim. -/
theorem getLastRecords_no_storage_fetch_cex :
    chat7s.hasStorage = true ∧ chat7s.lastSeq = 2 ∧
    chat7s.getLastRecords 2 = [⟨2, 0, "u", "m2", []⟩] ∧
    (chat7s.getLastRecords 2).length = 1 := by
  decide

/-- C7 witness: on the wrapped capacity-2 chat (in-memory seqs 2,3),
`GetLastRecords(5)` returns the 2 in-memory records starting at seq 2. -/
theorem getLastRecords_memory_only_witness :
    (0 : Int) < 5 ∧
    (chat7w.getLastRecords 5).length =
      (min 5 (chat7w.lastSeq - chat7w.firstSeq + 1)).toNat ∧
    ((chat7w.getLastRecords 5).getD 0 default).seq =
      chat7w.lastSeq - min 5 (chat7w.lastSeq - chat7w.firstSeq + 1) + 1 +
        ((0 : Nat) : Int) :=
  ⟨by decide,
   (getLastRecords_memory_only chat7w
     ⟨by decide, by decide, by decide, by decide, by decide, by decide,
      by decide⟩ 5 (by decide)).1,
   (getLastRecords_memory_only chat7w
     ⟨by decide, by decide, by decide, by decide, by decide, by decide,
      by decide⟩ 5 (by decide)).2 0 (by decide)⟩

end Besedka
